import Mathlib

/-!
# The intersection controller of `kern/synchprobs/traffic_synch.c`

A shallow embedding of the traffic-intersection synchronisation code of OS/161
(`intersection_before_entry`, `intersection_after_exit`) and of the vehicles
that call it, followed by the properties established about it.

The file-level variables `int_state[4]`, `line[4]` and `light` are C `int`s.
They are embedded as mathematical integers: the counters only move by one per
call, so reaching the end of the `int` range takes 2^31 vehicles, and signed
overflow has no defined behaviour in C anyway.
-/

namespace TrafficSynch

/-! ## Data model -/

/-- Modelled from the spec: the enumeration `Direction` is declared in
`synchprobs.h`, which is not among the sources. Its four values and their
numbering are those of the comment at the head of `traffic_synch.c`
(`north = 0, east = 1, south = 2, west = 3`) and of the data model of the
specification. -/
inductive Direction where
  | north
  | east
  | south
  | west
  deriving DecidableEq, Repr

/-- The integer value of a direction constant, as listed in the comment at the
head of `traffic_synch.c`. -/
def Direction.code : Direction → Int
  | .north => 0
  | .east => 1
  | .south => 2
  | .west => 3

/-- The constant `const int empty_state = -1`. -/
def empty_state : Int := -1

/-- A four-element C array indexed by a `Direction`. -/
structure Arr4 (α : Type) where
  north : α
  east : α
  south : α
  west : α
  deriving DecidableEq, Repr

/-- Array read `a[d]`. -/
def Arr4.get {α : Type} (a : Arr4 α) : Direction → α
  | .north => a.north
  | .east => a.east
  | .south => a.south
  | .west => a.west

/-- Array write `a[d] = v`. -/
def Arr4.set {α : Type} (a : Arr4 α) (d : Direction) (v : α) : Arr4 α :=
  match d with
  | .north => { a with north := v }
  | .east => { a with east := v }
  | .south => { a with south := v }
  | .west => { a with west := v }

/-- The static variables of `traffic_synch.c` that the lock `int_lk` protects:
`int_state[4]` (vehicles inside, per origin), `line[4]` (vehicles lining up,
per origin) and `light` (direction of the current flow, or `empty_state`). -/
structure Globals where
  int_state : Arr4 Int
  line : Arr4 Int
  light : Int
  deriving DecidableEq, Repr

/-! ## `intersection_before_entry` -/

/-- How a call of `intersection_before_entry` leaves the critical section:
either it is suspended inside `cv_wait(cv, int_lk)` (which gives up the lock),
or it runs to `lock_release` and returns. -/
inductive EntryResult where
  | waiting (g : Globals) (cv : Direction)
  | returned (g : Globals)
  deriving DecidableEq, Repr

/-- The statements of `intersection_before_entry` that follow the `cv_wait`
of the branch of `origin` (lines 100-104, 110-114, 120-124, 130-134): claim an
empty light, reset `line[origin]`, increment `int_state[origin]`. They are run
both by a call that did not wait and by a vehicle that returns from
`cv_wait`; the condition of the `if` around `cv_wait` is not tested again. -/
def before_entry_enter (g : Globals) (origin : Direction) : Globals :=
  match origin with
  | .north =>
    let g1 := if g.light = empty_state then { g with light := Direction.north.code } else g
    let g2 := { g1 with line := { g1.line with north := 0 } }
    { g2 with int_state := { g2.int_state with north := g2.int_state.north + 1 } }
  | .east =>
    let g1 := if g.light = empty_state then { g with light := Direction.east.code } else g
    let g2 := { g1 with line := { g1.line with east := 0 } }
    { g2 with int_state := { g2.int_state with east := g2.int_state.east + 1 } }
  | .south =>
    let g1 := if g.light = empty_state then { g with light := Direction.south.code } else g
    let g2 := { g1 with line := { g1.line with south := 0 } }
    { g2 with int_state := { g2.int_state with south := g2.int_state.south + 1 } }
  | .west =>
    let g1 := if g.light = empty_state then { g with light := Direction.west.code } else g
    let g2 := { g1 with line := { g1.line with west := 0 } }
    { g2 with int_state := { g2.int_state with west := g2.int_state.west + 1 } }

/-- The function `intersection_before_entry(origin, destination)`, from
`lock_acquire` up to the point where the lock is next given up: the four
hand-written branches, each with its own condition. -/
def intersection_before_entry (g : Globals) (origin destination : Direction) : EntryResult :=
  match origin, destination with
  | .north, _ =>
    if (g.light ≠ Direction.north.code ∧ g.light ≠ empty_state) ∨ g.int_state.east ≠ 0
        ∨ g.int_state.west ≠ 0 ∨ g.int_state.south ≠ 0 then
      .waiting { g with line := { g.line with north := g.line.north + 1 } } .north
    else
      .returned (before_entry_enter g .north)
  | .east, _ =>
    if (g.light ≠ Direction.east.code ∧ g.light ≠ empty_state) ∨ g.int_state.north ≠ 0
        ∨ g.int_state.south ≠ 0 ∨ g.int_state.west ≠ 0 then
      .waiting { g with line := { g.line with east := g.line.east + 1 } } .east
    else
      .returned (before_entry_enter g .east)
  | .south, _ =>
    if (g.light ≠ Direction.south.code ∧ g.light ≠ empty_state) ∨ g.int_state.north ≠ 0
        ∨ g.int_state.west ≠ 0 ∨ g.int_state.east ≠ 0 then
      .waiting { g with line := { g.line with south := g.line.south + 1 } } .south
    else
      .returned (before_entry_enter g .south)
  | .west, _ =>
    if (g.light ≠ Direction.west.code ∧ g.light ≠ empty_state) ∨ g.int_state.north ≠ 0
        ∨ g.int_state.east ≠ 0 ∨ g.int_state.south ≠ 0 then
      .waiting { g with line := { g.line with west := g.line.west + 1 } } .west
    else
      .returned (before_entry_enter g .west)

/-! ## `intersection_after_exit` -/

/-- Lines 158-170 of `intersection_after_exit`: the decrement of
`int_state[origin]`, written as the source's chain of comparisons. -/
def after_exit_decrement (g : Globals) (origin : Direction) : Globals :=
  if origin = .north then
    { g with int_state := { g.int_state with north := g.int_state.north - 1 } }
  else if origin = .south then
    { g with int_state := { g.int_state with south := g.int_state.south - 1 } }
  else if origin = .east then
    { g with int_state := { g.int_state with east := g.int_state.east - 1 } }
  else
    { g with int_state := { g.int_state with west := g.int_state.west - 1 } }

/-- Lines 177-234 of `intersection_after_exit`: the `switch (origin)` that
sets the light and calls `cv_broadcast`. The result is the new state and the
direction whose condition variable is broadcast. -/
def after_exit_switch (g : Globals) (origin : Direction) : Globals × Direction :=
  match origin with
  | .north =>
    if g.line.south > 0 then ({ g with light := Direction.south.code }, .south)
    else if g.line.east > 0 then ({ g with light := Direction.east.code }, .east)
    else ({ g with light := Direction.west.code }, .west)
  | .south =>
    if g.line.east > 0 then ({ g with light := Direction.east.code }, .east)
    else if g.line.west > 0 then ({ g with light := Direction.west.code }, .west)
    else ({ g with light := Direction.north.code }, .north)
  | .west =>
    if g.line.north > 0 then ({ g with light := Direction.north.code }, .north)
    else if g.line.south > 0 then ({ g with light := Direction.south.code }, .south)
    else ({ g with light := Direction.east.code }, .east)
  | .east =>
    if g.line.west > 0 then ({ g with light := Direction.west.code }, .west)
    else if g.line.north > 0 then ({ g with light := Direction.north.code }, .north)
    else ({ g with light := Direction.south.code }, .south)

/-- The function `intersection_after_exit(origin, destination)`: the state it
leaves and the condition variable it broadcasts, if any. The argument
`destination` is discarded, as by the source's `(void)destination`. -/
def intersection_after_exit (g : Globals) (origin destination : Direction) :
    Globals × Option Direction :=
  match destination with
  | _ =>
    let g1 := after_exit_decrement g origin
    if g1.int_state.north = 0 ∧ g1.int_state.south = 0 ∧ g1.int_state.west = 0
        ∧ g1.int_state.east = 0 then
      if g1.line.north = 0 ∧ g1.line.east = 0 ∧ g1.line.west = 0 ∧ g1.line.south = 0 then
        ({ g1 with light := empty_state }, none)
      else
        ((after_exit_switch g1 origin).1, some (after_exit_switch g1 origin).2)
    else
      (g1, none)

/-! ## Vehicles -/

/-- Whether a call of `intersection_before_entry` ended suspended in
`cv_wait`. -/
def EntryResult.isWaiting : EntryResult → Bool
  | .waiting _ _ => true
  | .returned _ => false

/-- The light holds one of the five values the code ever stores in it:
`empty_state` or a direction constant. -/
def LightValid (g : Globals) : Prop :=
  g.light = empty_state ∨ ∃ d : Direction, g.light = d.code

/-- The controller together with its vehicles. Per origin direction:
`blocked` counts the vehicles suspended in `cv_wait` whose condition variable
has not been broadcast since, `woken` those that were broadcast and have not
yet re-acquired the lock, `inside` those whose `intersection_before_entry`
returned and that have not yet called `intersection_after_exit`. -/
structure Sys where
  g : Globals
  blocked : Arr4 Nat
  woken : Arr4 Nat
  inside : Arr4 Nat
  deriving DecidableEq, Repr

/-- One vehicle runs one critical section, from acquiring `int_lk` to giving
it up. -/
inductive Event where
  | arrive (origin destination : Direction)
  | resume (origin : Direction)
  | leave (origin destination : Direction)
  deriving DecidableEq, Repr

/-- The state after `intersection_sync_init`: light empty, all counters zero,
no vehicle yet. -/
def init : Sys :=
  { g := { int_state := ⟨0, 0, 0, 0⟩, line := ⟨0, 0, 0, 0⟩, light := empty_state }
    blocked := ⟨0, 0, 0, 0⟩
    woken := ⟨0, 0, 0, 0⟩
    inside := ⟨0, 0, 0, 0⟩ }

/-- Modelled from the spec: `lock_acquire`, `cv_wait` and `cv_broadcast` are
defined in `kern/thread/synch.c`, which is not among the sources. Following
the specification (the mutex is released while blocked and re-acquired on
wake; a broadcast wakes all waiters of that direction), every critical section
is one atomic step:
* `arrive`: a new vehicle calls `intersection_before_entry` and either
  suspends in `cv_wait` or returns;
* `resume`: a vehicle whose condition variable was broadcast re-acquires the
  lock, at any later time, and runs the rest of `intersection_before_entry`;
* `leave`: a vehicle that is inside calls `intersection_after_exit`; a
  broadcast moves all vehicles blocked on that condition variable to `woken`.
The step is `none` when no vehicle can take it (nobody woken, nobody inside). -/
def step (s : Sys) : Event → Option Sys
  | .arrive origin destination =>
    match intersection_before_entry s.g origin destination with
    | .waiting g cv => some { s with g := g, blocked := s.blocked.set cv (s.blocked.get cv + 1) }
    | .returned g => some { s with g := g, inside := s.inside.set origin (s.inside.get origin + 1) }
  | .resume origin =>
    if 0 < s.woken.get origin then
      some { s with
        g := before_entry_enter s.g origin
        woken := s.woken.set origin (s.woken.get origin - 1)
        inside := s.inside.set origin (s.inside.get origin + 1) }
    else none
  | .leave origin destination =>
    if 0 < s.inside.get origin then
      match intersection_after_exit s.g origin destination with
      | (g, none) =>
        some { s with g := g, inside := s.inside.set origin (s.inside.get origin - 1) }
      | (g, some cv) =>
        some { g := g
               blocked := s.blocked.set cv 0
               woken := s.woken.set cv (s.woken.get cv + s.blocked.get cv)
               inside := s.inside.set origin (s.inside.get origin - 1) }
    else none

/-- Run a schedule: the events in order, failing at the first one that no
vehicle can take. -/
def run (s : Sys) : List Event → Option Sys
  | [] => some s
  | e :: es => (step s e).bind (fun s1 => run s1 es)

/-- A state is reachable when some schedule leads to it from `init`. Between
two steps the lock is not held. -/
def Reachable (s : Sys) : Prop :=
  ∃ es : List Event, run init es = some s

/-- The check order of the rotation table of the specification, per exiting
origin (section 4.1). -/
def specCheckOrder : Direction → List Direction
  | .north => [.south, .east, .west]
  | .south => [.east, .west, .north]
  | .west => [.north, .south, .east]
  | .east => [.west, .north, .south]

/-- Two vehicles from the north inside, one from the east lining up. -/
def twoNorthInside : Globals :=
  { int_state := ⟨2, 0, 0, 0⟩, line := ⟨0, 1, 0, 0⟩, light := Direction.north.code }

/-- One vehicle from the south inside, nobody lining up. -/
def oneSouthInside : Globals :=
  { int_state := ⟨0, 0, 1, 0⟩, line := ⟨0, 0, 0, 0⟩, light := Direction.south.code }

/-- The last vehicle from the north is inside; east and west line up. -/
def northLastOut : Globals :=
  { int_state := ⟨1, 0, 0, 0⟩, line := ⟨0, 1, 0, 1⟩, light := Direction.north.code }

/-- A schedule in which a woken east vehicle and a woken south vehicle both
resume late. -/
def lateResumeSchedule : List Event :=
  [.arrive .north .south, .arrive .east .west, .leave .north .south,
   .arrive .south .north, .arrive .east .west, .leave .east .west,
   .resume .east, .resume .south]

/-- A schedule after which the east vehicle woken by the first hand-off has
not resumed yet, while a south vehicle found the intersection idle and went
in. -/
def idleThenResumeSchedule : List Event :=
  [.arrive .north .south, .arrive .east .west, .leave .north .south,
   .arrive .east .north, .leave .east .north, .arrive .south .west]

/-- The first seven events of `lateResumeSchedule`: the woken east vehicle has
resumed, the woken south vehicle has not. -/
def lightMismatchSchedule : List Event :=
  [.arrive .north .south, .arrive .east .west, .leave .north .south,
   .arrive .south .north, .arrive .east .west, .leave .east .west,
   .resume .east]

/-- The schedule of a first hand-off: a north vehicle enters, an east vehicle
lines up, the north vehicle leaves. -/
def handOffSchedule : List Event :=
  [.arrive .north .south, .arrive .east .west, .leave .north .south]

/-- After `lateResumeSchedule`, a further east vehicle lines up and the south
vehicle leaves: the east vehicle that is inside is the last one out. -/
def strandedSchedule : List Event :=
  lateResumeSchedule ++ [.arrive .east .north, .leave .south .north]

/-- What every step maintains: each `int_state` counter equals the number of
vehicles of that origin that are inside, and an empty light comes with four
zero counters. -/
def CountInv (s : Sys) : Prop :=
  (s.g.int_state.north = s.inside.north ∧ s.g.int_state.east = s.inside.east ∧
    s.g.int_state.south = s.inside.south ∧ s.g.int_state.west = s.inside.west) ∧
  (s.g.light = empty_state →
    s.g.int_state.north = 0 ∧ s.g.int_state.east = 0 ∧
    s.g.int_state.south = 0 ∧ s.g.int_state.west = 0)

/-- A vehicle enters an idle intersection and leaves it again. -/
def idleAgainSchedule : List Event :=
  [.arrive .west .east, .leave .west .east]

/-- The clockwise successor of a direction, in the words of the
specification: north, east, south, west, north, which is the enumeration
order `(d + 1) mod 4`. -/
def clockwise : Direction → Direction
  | .north => .east
  | .east => .south
  | .south => .west
  | .west => .north

/-- The check order as the prose of the specification describes it: the
direction 90 degrees clockwise from `origin` first, then the one 180 degrees
from it, then the one 270 degrees clockwise. -/
def clockwiseCheckOrder (origin : Direction) : List Direction :=
  [clockwise origin, clockwise (clockwise origin), clockwise (clockwise (clockwise origin))]

/-- The last vehicle from the north is inside; east and south line up. -/
def northEastSouthWaiting : Globals :=
  { int_state := ⟨1, 0, 0, 0⟩, line := ⟨0, 1, 1, 0⟩, light := Direction.north.code }

/-- The state of a hand-off with all queues full: the vehicle that calls
`intersection_after_exit(origin)` is the last one inside, and every direction
other than `origin` has `line[d] > 0`. -/
def HandOffReady (g : Globals) (origin : Direction) : Prop :=
  (∀ d : Direction, (if d = origin then g.int_state.get d - 1 else g.int_state.get d) = 0) ∧
  ∀ d : Direction, d ≠ origin → g.line.get d > 0

/-- The last vehicle of `origin` is inside and every direction lines up. -/
def lastOutAllWaiting (origin : Direction) : Globals :=
  { int_state := (Arr4.mk 0 0 0 0).set origin 1, line := ⟨1, 1, 1, 1⟩, light := origin.code }

/-- The batch scenario, phase one: `k` vehicles of `d` are inside, nobody
lines up. -/
def batchInside (d : Direction) (k : Nat) : Sys :=
  { g := { int_state := (Arr4.mk 0 0 0 0).set d (k : Int), line := ⟨0, 0, 0, 0⟩, light := d.code }
    blocked := ⟨0, 0, 0, 0⟩
    woken := ⟨0, 0, 0, 0⟩
    inside := (Arr4.mk 0 0 0 0).set d k }

/-- The batch scenario, phase two: `k` vehicles of `d` are inside and one
vehicle of `e` is suspended in `cv_wait`. -/
def batchWaiting (d e : Direction) (k : Nat) : Sys :=
  { g := { int_state := (Arr4.mk 0 0 0 0).set d (k : Int)
           line := (Arr4.mk 0 0 0 0).set e 1
           light := d.code }
    blocked := (Arr4.mk 0 0 0 0).set e 1
    woken := ⟨0, 0, 0, 0⟩
    inside := (Arr4.mk 0 0 0 0).set d k }

/-- The batch scenario, phase three: the last vehicle of the batch has left
and handed the light to `e`, whose vehicle is woken. -/
def batchHanded (e : Direction) : Sys :=
  { g := { int_state := ⟨0, 0, 0, 0⟩, line := (Arr4.mk 0 0 0 0).set e 1, light := e.code }
    blocked := ⟨0, 0, 0, 0⟩
    woken := (Arr4.mk 0 0 0 0).set e 1
    inside := ⟨0, 0, 0, 0⟩ }

/-- Whether event `e`, taken in state `s`, is a call of
`intersection_before_entry(d)` that returns: an arrival from `d` that does not
suspend, or a vehicle of `d` returning from `cv_wait`. -/
def completesEntry (s : Sys) (d : Direction) : Event → Bool
  | .arrive origin destination =>
    decide (origin = d) && !(intersection_before_entry s.g origin destination).isWaiting
  | .resume origin => decide (origin = d)
  | .leave _ _ => false

/-- Whether event `e` is a call of `intersection_after_exit(d)`. -/
def isExitOf (d : Direction) : Event → Bool
  | .leave origin _ => decide (origin = d)
  | _ => false

/-- The number of completed `intersection_before_entry(d)` calls along a
schedule run from `s`. -/
def entriesDone (d : Direction) : Sys → List Event → Nat
  | _, [] => 0
  | s, e :: es =>
    match step s e with
    | none => 0
    | some s1 => (if completesEntry s d e then 1 else 0) + entriesDone d s1 es

/-- The number of completed `intersection_after_exit(d)` calls along a
schedule run from `s`. -/
def exitsDone (d : Direction) : Sys → List Event → Nat
  | _, [] => 0
  | s, e :: es =>
    match step s e with
    | none => 0
    | some s1 => (if isExitOf d e then 1 else 0) + exitsDone d s1 es

/-- The five pointers `int_lk`, `N`, `S`, `E`, `W` of `traffic_synch.c`, or
the values that `lock_create` and `cv_create` return: `true` for an object
that exists, `false` for `NULL`. -/
structure SyncObjs where
  int_lk : Bool
  N : Bool
  S : Bool
  E : Bool
  W : Bool
  deriving DecidableEq, Repr

/-- All five synchronisation objects exist. -/
def allCreated : SyncObjs :=
  { int_lk := true, N := true, S := true, E := true, W := true }

/-- The call of `panic` that ends `intersection_sync_init`, by the object
whose creation returned `NULL`. -/
inductive InitPanic where
  | int_lk
  | south
  | north
  | east
  | west
  deriving DecidableEq, Repr

/-- The function `intersection_sync_init`: `c` holds what `lock_create` and
the four `cv_create` calls return. The objects are created and tested in the
order lock, South, North, East, West, and each `NULL` ends in `panic`; the
only variable of the controller that is then assigned is `light`. The arrays
`int_state` and `line` are not written: as `static` variables they are zero
when the kernel is loaded. -/
def intersection_sync_init (g : Globals) (c : SyncObjs) : Except InitPanic Globals :=
  if c.int_lk = false then .error .int_lk
  else if c.S = false then .error .south
  else if c.N = false then .error .north
  else if c.E = false then .error .east
  else if c.W = false then .error .west
  else .ok { g with light := empty_state }

/-- The whole of `intersection_after_exit`, with the five `KASSERT`s of lines
150-154 in front of the critical section: `none` is a failed assertion. There
is no assertion on `int_state`. -/
def after_exit_asserted (o : SyncObjs) (g : Globals) (origin destination : Direction) :
    Option (Globals × Option Direction) :=
  if o.int_lk = true ∧ o.S = true ∧ o.N = true ∧ o.E = true ∧ o.W = true then
    some (intersection_after_exit g origin destination)
  else none

/-- After `strandedSchedule` the last vehicle inside, from the east, leaves. -/
def stuckSchedule : List Event :=
  strandedSchedule ++ [.leave .east .north]

/-- A woken east vehicle returns from `cv_wait` after a further east vehicle
has lined up behind a south vehicle that found the intersection idle. -/
def hiddenWaiterSchedule : List Event :=
  [.arrive .north .south, .arrive .east .west, .leave .north .south,
   .arrive .east .north, .leave .east .north, .arrive .south .west,
   .arrive .east .south, .resume .east]

end TrafficSynch

/-! # The process system calls of `kern/syscall/proc_syscalls.c` -/

namespace ProcSyscalls

/-- Reduction to the 32 bits of `vaddr_t` and `size_t` on the MIPS target. -/
def wrap32 (x : Nat) : Nat := x % 2 ^ 32

/-- Unsigned 32-bit subtraction `a - b`. -/
def sub32 (a b : Nat) : Nat := wrap32 (a + 2 ^ 32 - b % 2 ^ 32)

/-- Modelled from the spec: the macro `ROUNDUP` is defined in `lib.h`, which is
not among the sources. It rounds `a` up to the next multiple of `b`, as
`((a + b - 1) / b) * b`, here on 32-bit unsigned values. -/
def ROUNDUP (a b : Nat) : Nat := wrap32 (wrap32 (a + b - 1) / b * b)

/-- Lines 88-105 and 116 of `sys_execv`. `lens` holds `strlen(kernel_args[i])`
for each argument and `stackptr` is the stack top that `as_define_stack`
returns. The first loop runs from the last argument to the first and moves
`stack_ptr` down by `ROUNDUP(strlen + 1, 4)` each time; the second loop moves
it down by `sizeof(vaddr_t)`, four bytes, `args_count + 1` times. The result
is `stack_ptr`, passed to `enter_new_process` as the address of the argv
array, and `ROUNDUP(stack_ptr, 8)`, passed as the stack pointer. -/
def sys_execv_stack (lens : List Nat) (stackptr : Nat) : Nat × Nat :=
  let afterStrings := lens.foldr (fun len sp => sub32 sp (ROUNDUP (len + 1) 4)) stackptr
  let afterPointers :=
    (List.range (lens.length + 1)).foldl (fun sp _ => sub32 sp 4) afterStrings
  (afterPointers, ROUNDUP afterPointers 8)

/-- The user stack top of OS/161 on MIPS, `USERSTACK`, which is 8-byte
aligned. -/
def userStackTop : Nat := 0x80000000

/-- The fields `pid` and `exit_status` of a `struct Child` (the pointer
`p_addr` to the process is left out). -/
structure Child where
  pid : Int
  exit_status : Int
  deriving DecidableEq, Repr

/-- Lines 132-135 of `sys_fork`: the entry that the parent adds to its array
of children, with `exit_status = -1`. -/
def sys_fork_child (pid : Int) : Child :=
  { pid := pid, exit_status := -1 }

/-- Lines 164-170 of `sys__exit`: the loop over the parent's array of
children that stores `exitcode` in the first entry with the pid of the exiting
process, then breaks. -/
def sys__exit_record (pid exitcode : Int) : List Child → List Child
  | [] => []
  | child :: rest =>
    if pid = child.pid then { child with exit_status := exitcode } :: rest
    else child :: sys__exit_record pid exitcode rest

/-- What the loop of `sys_waitpid` comes to: it is suspended in `cv_wait`, or
it ends without having found the pid (`ESRCH`), or it ends with an exit
status. -/
inductive WaitResult where
  | waiting
  | noSuchChild
  | exited (exitstatus : Int)
  deriving DecidableEq, Repr

/-- Lines 208-219 of `sys_waitpid`: the loop over the array of children. An
entry with the pid sets `child_exist`; while its `exit_status` is -1 the
caller sits in `cv_wait`, otherwise `exitstatus` becomes
`_MKWAIT_EXIT(exit_status)`. The macro `_MKWAIT_EXIT` of `kern/wait.h` is the
parameter `mkwait`. `found` carries `child_exist` and `exitstatus`. -/
def sys_waitpid_loop (mkwait : Int → Int) (pid : Int) (found : Option Int) :
    List Child → WaitResult
  | [] =>
    match found with
    | none => .noSuchChild
    | some exitstatus => .exited exitstatus
  | child :: rest =>
    if pid = child.pid then
      if child.exit_status = -1 then .waiting
      else sys_waitpid_loop mkwait pid (some (mkwait child.exit_status)) rest
    else sys_waitpid_loop mkwait pid found rest

end ProcSyscalls

namespace TrafficSynch

/-- What every step maintains besides `CountInv`: an empty light comes with
four zero `line` counters, and eight zero counters come with an empty light. -/
def LightInv (s : Sys) : Prop :=
  (s.g.light = empty_state →
    s.g.line.north = 0 ∧ s.g.line.east = 0 ∧ s.g.line.south = 0 ∧ s.g.line.west = 0) ∧
  ((s.g.int_state.north = 0 ∧ s.g.int_state.east = 0 ∧
      s.g.int_state.south = 0 ∧ s.g.int_state.west = 0) ∧
    (s.g.line.north = 0 ∧ s.g.line.east = 0 ∧ s.g.line.south = 0 ∧ s.g.line.west = 0) →
    s.g.light = empty_state)

/-! ## The two operations, call by call -/

theorem Direction.code_ne_empty (d : Direction) : d.code ≠ empty_state := by
  cases d <;> simp [Direction.code, empty_state]

theorem Direction.code_injective {d e : Direction} (h : d.code = e.code) : d = e := by
  cases d <;> cases e <;> simp [Direction.code] at h <;> rfl

/-- C5. For every origin and every state whose light holds `empty_state` or a
direction, `intersection_before_entry(origin)` suspends in `cv_wait` exactly
when the light is set to a direction other than `origin` or some
`int_state[d]` with `d` other than `origin` is nonzero; and when it suspends
it has incremented `line[origin]`, changed nothing else, and waits on the
condition variable of `origin`. The four branches are this one rule. -/
theorem before_entry_blocks_iff (g : Globals) (origin destination : Direction)
    (hl : LightValid g) :
    ((intersection_before_entry g origin destination).isWaiting = true ↔
      ((∃ d : Direction, d ≠ origin ∧ g.light = d.code) ∨
        ∃ d : Direction, d ≠ origin ∧ g.int_state.get d ≠ 0)) ∧
    ((intersection_before_entry g origin destination).isWaiting = true →
      intersection_before_entry g origin destination =
        .waiting { g with line := g.line.set origin (g.line.get origin + 1) } origin) := by
  have key : ∀ o : Direction,
      ((g.light ≠ o.code ∧ g.light ≠ empty_state) ↔ ∃ d : Direction, d ≠ o ∧ g.light = d.code) := by
    intro o
    constructor
    · rintro ⟨h1, h2⟩
      rcases hl with h | ⟨d, hd⟩
      · exact absurd h h2
      · refine ⟨d, ?_, hd⟩
        rintro rfl
        exact h1 hd
    · rintro ⟨d, hne, hd⟩
      refine ⟨?_, ?_⟩
      · intro h
        exact hne (Direction.code_injective (hd.symm.trans h))
      · rw [hd]
        exact Direction.code_ne_empty d
  constructor
  · rw [← key origin]
    cases origin
    all_goals
      simp only [intersection_before_entry]
      split_ifs with hc
      · simp only [EntryResult.isWaiting, true_iff]
        rcases hc with hc | hc | hc | hc
        · exact Or.inl hc
        all_goals
          first
            | exact Or.inr ⟨.north, by decide, hc⟩
            | exact Or.inr ⟨.east, by decide, hc⟩
            | exact Or.inr ⟨.south, by decide, hc⟩
            | exact Or.inr ⟨.west, by decide, hc⟩
      · simp only [EntryResult.isWaiting, Bool.false_eq_true, false_iff]
        rintro (h | ⟨d, hne, hd⟩)
        · exact hc (Or.inl h)
        · cases d <;> simp_all [Arr4.get]
  · cases origin
    all_goals
      simp only [intersection_before_entry]
      split_ifs with hc
      · intro _
        rfl
      · intro h
        simp [EntryResult.isWaiting] at h

/-- The instance of `before_entry_blocks_iff` for an arrival from the east
while two vehicles from the north are inside: the light is `north` and
`int_state[north]` is 2, so both sides of the equivalence hold, the call
suspends, and it does so on the condition variable of east with `line[east]`
incremented. With it, the instance for an arrival from the north in the same
state, which does not suspend. -/
theorem before_entry_blocks_iff_witness :
    LightValid twoNorthInside ∧
    (intersection_before_entry twoNorthInside .east .west).isWaiting = true ∧
    ((∃ d : Direction, d ≠ .east ∧ twoNorthInside.light = d.code) ∨
      ∃ d : Direction, d ≠ .east ∧ twoNorthInside.int_state.get d ≠ 0) ∧
    intersection_before_entry twoNorthInside .east .west =
      .waiting
        { twoNorthInside with
          line := twoNorthInside.line.set .east (twoNorthInside.line.get .east + 1) }
        .east ∧
    (intersection_before_entry twoNorthInside .north .west).isWaiting = false ∧
    ¬ ((∃ d : Direction, d ≠ .north ∧ twoNorthInside.light = d.code) ∨
      ∃ d : Direction, d ≠ .north ∧ twoNorthInside.int_state.get d ≠ 0) :=
  ⟨Or.inr ⟨.north, rfl⟩, by decide,
    (before_entry_blocks_iff twoNorthInside .east .west (Or.inr ⟨.north, rfl⟩)).1.mp (by decide),
    (before_entry_blocks_iff twoNorthInside .east .west (Or.inr ⟨.north, rfl⟩)).2 (by decide),
    by decide,
    fun h =>
      absurd
        ((before_entry_blocks_iff twoNorthInside .north .west (Or.inr ⟨.north, rfl⟩)).1.mpr h)
        (by decide)⟩

/-- C6. When `intersection_before_entry(origin, destination)` is admitted
without waiting, it returns in exactly this state: the light is `origin` if it
was empty and is otherwise unchanged, `line[origin]` is 0, `int_state[origin]`
is one more than before, `line[d]` and `int_state[d]` are unchanged for every
other `d`; and every other destination gives the same state. -/
theorem before_entry_entered_state (g : Globals) (origin destination : Direction)
    (h : (intersection_before_entry g origin destination).isWaiting = false) :
    ∃ g1 : Globals,
      (∀ dst : Direction, intersection_before_entry g origin dst = .returned g1) ∧
      g1.light = (if g.light = empty_state then origin.code else g.light) ∧
      g1.line.get origin = 0 ∧
      g1.int_state.get origin = g.int_state.get origin + 1 ∧
      ∀ d : Direction, d ≠ origin →
        g1.line.get d = g.line.get d ∧ g1.int_state.get d = g.int_state.get d := by
  refine ⟨before_entry_enter g origin, ?_, ?_, ?_, ?_, ?_⟩
  · intro dst
    cases origin
    all_goals
      simp only [intersection_before_entry] at h ⊢
      split_ifs at h ⊢ with hc
      · simp [EntryResult.isWaiting] at h
      · rfl
  · cases origin <;> simp only [before_entry_enter] <;> split_ifs <;> rfl
  · cases origin <;> simp only [before_entry_enter] <;> split_ifs <;> rfl
  · cases origin <;> simp only [before_entry_enter] <;> split_ifs <;> rfl
  · intro d hd
    cases origin <;> cases d <;> first
      | exact absurd rfl hd
      | (simp only [before_entry_enter]; split_ifs <;> exact ⟨rfl, rfl⟩)

/-- The instance of `before_entry_entered_state` at the idle state and an
arrival from the west. -/
theorem before_entry_entered_state_witness :
    (intersection_before_entry init.g .west .north).isWaiting = false ∧
    ∃ g1 : Globals,
      (∀ dst : Direction, intersection_before_entry init.g .west dst = .returned g1) ∧
      g1.light = (if init.g.light = empty_state then Direction.west.code else init.g.light) ∧
      g1.line.get .west = 0 ∧
      g1.int_state.get .west = init.g.int_state.get .west + 1 ∧
      ∀ d : Direction, d ≠ .west →
        g1.line.get d = init.g.line.get d ∧ g1.int_state.get d = init.g.int_state.get d :=
  ⟨by decide, before_entry_entered_state init.g .west .north (by decide)⟩

/-- C7. If, once `intersection_after_exit(origin)` has decremented
`int_state[origin]`, some `int_state[d]` is still nonzero, the call changes
nothing else: no broadcast, the light and the four `line` counters are as
before, and so is `int_state` of the three other directions. -/
theorem after_exit_still_occupied (g : Globals) (origin destination : Direction)
    (h : ∃ d : Direction,
      (if d = origin then g.int_state.get d - 1 else g.int_state.get d) ≠ 0) :
    (intersection_after_exit g origin destination).2 = none ∧
    (intersection_after_exit g origin destination).1.light = g.light ∧
    (intersection_after_exit g origin destination).1.line = g.line ∧
    (intersection_after_exit g origin destination).1.int_state.get origin =
      g.int_state.get origin - 1 ∧
    ∀ d : Direction, d ≠ origin →
      (intersection_after_exit g origin destination).1.int_state.get d = g.int_state.get d := by
  obtain ⟨d, hd⟩ := h
  have hnot : ¬ ((after_exit_decrement g origin).int_state.north = 0 ∧
      (after_exit_decrement g origin).int_state.south = 0 ∧
      (after_exit_decrement g origin).int_state.west = 0 ∧
      (after_exit_decrement g origin).int_state.east = 0) := by
    rintro ⟨h1, h2, h3, h4⟩
    cases origin <;> cases d <;> simp_all [after_exit_decrement, Arr4.get]
  have hr : intersection_after_exit g origin destination =
      (after_exit_decrement g origin, none) := by
    simp only [intersection_after_exit]
    rw [if_neg hnot]
  rw [hr]
  refine ⟨rfl, ?_, ?_, ?_, ?_⟩
  · cases origin <;> simp [after_exit_decrement]
  · cases origin <;> simp [after_exit_decrement]
  · cases origin <;> simp [after_exit_decrement, Arr4.get]
  · intro e he
    cases origin <;> cases e <;> simp_all [after_exit_decrement, Arr4.get]

/-- The instance of `after_exit_still_occupied` with two vehicles from the
north inside and one from the east lining up, when one of the two leaves. -/
theorem after_exit_still_occupied_witness :
    (∃ d : Direction,
      (if d = Direction.north then twoNorthInside.int_state.get d - 1
        else twoNorthInside.int_state.get d) ≠ 0) ∧
    ((intersection_after_exit twoNorthInside .north .south).2 = none ∧
    (intersection_after_exit twoNorthInside .north .south).1.light = twoNorthInside.light ∧
    (intersection_after_exit twoNorthInside .north .south).1.line = twoNorthInside.line ∧
    (intersection_after_exit twoNorthInside .north .south).1.int_state.get .north =
      twoNorthInside.int_state.get .north - 1 ∧
    ∀ d : Direction, d ≠ .north →
      (intersection_after_exit twoNorthInside .north .south).1.int_state.get d =
        twoNorthInside.int_state.get d) :=
  ⟨⟨.north, by decide⟩,
    after_exit_still_occupied twoNorthInside .north .south ⟨.north, by decide⟩⟩

/-- When the decrement leaves no vehicle inside and nobody lines up, the call
empties the light and broadcasts nothing. -/
theorem after_exit_idle_result (g : Globals) (origin destination : Direction)
    (hz : ∀ d : Direction, (after_exit_decrement g origin).int_state.get d = 0)
    (hl : ∀ d : Direction, g.line.get d = 0) :
    intersection_after_exit g origin destination =
      ({ after_exit_decrement g origin with light := empty_state }, none) := by
  have hline : (after_exit_decrement g origin).line = g.line := by
    cases origin <;> simp [after_exit_decrement]
  simp only [intersection_after_exit]
  rw [if_pos ⟨hz .north, hz .south, hz .west, hz .east⟩, hline,
    if_pos ⟨hl .north, hl .east, hl .west, hl .south⟩]

/-- The state that `intersection_after_exit` leaves has the decremented
counters, on each of its three paths. -/
theorem after_exit_int_state (g : Globals) (origin destination : Direction) :
    (intersection_after_exit g origin destination).1.int_state =
      (after_exit_decrement g origin).int_state := by
  simp only [intersection_after_exit]
  split_ifs
  · rfl
  · cases origin <;> simp only [after_exit_switch] <;> split_ifs <;> rfl
  · rfl

/-- C8. Idle correctness: if `intersection_after_exit(origin)` leaves all four
`int_state` counters zero while all four `line` counters are zero, it sets the
light to `empty_state` and broadcasts nothing; and in the state it leaves,
`intersection_before_entry(d)` returns without waiting for every direction
`d`, with `light == d` and `int_state[d] == 1`. -/
theorem after_exit_idle_then_entry (g : Globals) (origin destination : Direction)
    (hz : ∀ d : Direction, (intersection_after_exit g origin destination).1.int_state.get d = 0)
    (hl : ∀ d : Direction, g.line.get d = 0) :
    (intersection_after_exit g origin destination).1.light = empty_state ∧
    (intersection_after_exit g origin destination).2 = none ∧
    ∀ d dst : Direction, ∃ g1 : Globals,
      intersection_before_entry (intersection_after_exit g origin destination).1 d dst =
        .returned g1 ∧
      g1.light = d.code ∧ g1.int_state.get d = 1 := by
  have hz1 : ∀ d : Direction, (after_exit_decrement g origin).int_state.get d = 0 := by
    intro d
    rw [← after_exit_int_state g origin destination]
    exact hz d
  rw [after_exit_idle_result g origin destination hz1 hl]
  refine ⟨rfl, rfl, ?_⟩
  intro d dst
  have n0 := hz1 .north
  have e0 := hz1 .east
  have s0 := hz1 .south
  have w0 := hz1 .west
  simp only [Arr4.get] at n0 e0 s0 w0
  refine ⟨before_entry_enter { after_exit_decrement g origin with light := empty_state } d, ?_, ?_, ?_⟩
  · cases d <;>
      simp [intersection_before_entry, n0, e0, s0, w0]
  · cases d <;> simp [before_entry_enter]
  · cases d <;> simp [before_entry_enter, Arr4.get, n0, e0, s0, w0]

/-- The instance of `after_exit_idle_then_entry` when the only vehicle, from
the south, leaves and nobody lines up. -/
theorem after_exit_idle_then_entry_witness :
    (∀ d : Direction, (intersection_after_exit oneSouthInside .south .east).1.int_state.get d = 0) ∧
    (∀ d : Direction, oneSouthInside.line.get d = 0) ∧
    ((intersection_after_exit oneSouthInside .south .east).1.light = empty_state ∧
    (intersection_after_exit oneSouthInside .south .east).2 = none ∧
    ∀ d dst : Direction, ∃ g1 : Globals,
      intersection_before_entry (intersection_after_exit oneSouthInside .south .east).1 d dst =
        .returned g1 ∧
      g1.light = d.code ∧ g1.int_state.get d = 1) :=
  ⟨by intro d; cases d <;> decide, by intro d; cases d <;> decide,
    after_exit_idle_then_entry oneSouthInside .south .east
      (by intro d; cases d <;> decide) (by intro d; cases d <;> decide)⟩

/-- C9. Rotation table: when the decrement leaves all `int_state` counters
zero and some direction other than `origin` has `line[d] > 0`,
`intersection_after_exit(origin)` sets the light to the first direction with
`line[d] > 0` in the check order of the specification's table, broadcasts the
condition variable of that direction, and changes nothing besides the
decremented counter and the light. -/
theorem after_exit_rotation (g : Globals) (origin destination : Direction)
    (hz : ∀ d : Direction,
      (if d = origin then g.int_state.get d - 1 else g.int_state.get d) = 0)
    (hw : ∃ d : Direction, d ≠ origin ∧ g.line.get d > 0) :
    ∃ c : Direction,
      (specCheckOrder origin).find? (fun d => decide (g.line.get d > 0)) = some c ∧
      intersection_after_exit g origin destination =
        ({ g with
            int_state := g.int_state.set origin (g.int_state.get origin - 1)
            light := c.code }, some c) := by
  obtain ⟨d, hd, hpos⟩ := hw
  have n0 := hz .north
  have e0 := hz .east
  have s0 := hz .south
  have w0 := hz .west
  by_cases hn : 0 < g.line.north <;> by_cases he : 0 < g.line.east <;>
    by_cases hs : 0 < g.line.south <;> by_cases hw : 0 < g.line.west <;>
    cases origin
  all_goals
    simp only [Arr4.get, reduceCtorEq, if_true, if_false] at n0 e0 s0 w0
    simp only [intersection_after_exit, after_exit_decrement, after_exit_switch, specCheckOrder,
      List.find?, Arr4.get, Arr4.set, reduceCtorEq, if_true, if_false, gt_iff_lt]
    rw [if_pos ⟨by omega, by omega, by omega, by omega⟩,
      if_neg (by
        rintro ⟨a, b, c, e⟩
        cases d <;> simp only [Arr4.get, gt_iff_lt] at hpos <;> omega)]
    first
      | (simp only [hn, he, hs, hw, decide_True, decide_False, if_true, if_false]
         exact ⟨_, rfl, rfl⟩)
      | (exfalso
         cases d <;> simp only [Arr4.get, gt_iff_lt] at hpos <;>
           first
             | exact absurd rfl hd
             | omega)

/-- The instance of `after_exit_rotation` when the last north vehicle leaves
while east and west line up: south is skipped and east is chosen. -/
theorem after_exit_rotation_witness :
    (∀ d : Direction,
      (if d = Direction.north then northLastOut.int_state.get d - 1
        else northLastOut.int_state.get d) = 0) ∧
    (∃ d : Direction, d ≠ Direction.north ∧ northLastOut.line.get d > 0) ∧
    ∃ c : Direction,
      (specCheckOrder .north).find? (fun d => decide (northLastOut.line.get d > 0)) = some c ∧
      intersection_after_exit northLastOut .north .south =
        ({ northLastOut with
            int_state := northLastOut.int_state.set .north (northLastOut.int_state.get .north - 1)
            light := c.code }, some c) :=
  ⟨by intro d; cases d <;> decide, ⟨.east, by decide, by decide⟩,
    after_exit_rotation northLastOut .north .south
      (by intro d; cases d <;> decide) ⟨.east, by decide, by decide⟩⟩

/-! ## Schedules on which the late return from `cv_wait` shows -/

/-- C1, evaluated on `lateResumeSchedule`. Every event of the schedule is one
a contract-respecting vehicle can take, and at its end `int_state[east]` and
`int_state[south]` are both 1: an east vehicle and a south vehicle, each woken
by a broadcast and each returning from `cv_wait` later without testing the
entry condition again, are inside together. -/
theorem late_resume_two_directions_inside :
    ∃ s : Sys, run init lateResumeSchedule = some s ∧
      s.g.int_state.get .east = 1 ∧ s.g.int_state.get .south = 1 ∧
      s.inside.get .east = 1 ∧ s.inside.get .south = 1 :=
  ⟨_, rfl, rfl, rfl, rfl, rfl⟩

/-- C2, evaluated on `idleThenResumeSchedule`. At its end an east vehicle is
woken and may resume; the statements it then runs increment
`int_state[east]` while the light is `south` and `int_state[south]` is 1, and
`intersection_before_entry(east)` returns. -/
theorem resumed_entry_not_safe :
    ∃ s : Sys, run init idleThenResumeSchedule = some s ∧
      0 < s.woken.get .east ∧
      (before_entry_enter s.g .east).light = Direction.south.code ∧
      (before_entry_enter s.g .east).int_state.get .south = 1 ∧
      (before_entry_enter s.g .east).int_state.get .east = s.g.int_state.get .east + 1 ∧
      (step s (.resume .east)).map Sys.g = some (before_entry_enter s.g .east) :=
  ⟨_, rfl, by decide, rfl, rfl, rfl, rfl⟩

/-- C3, evaluated on `lightMismatchSchedule`. The state at its end is
reachable, its light is `south`, and `int_state[east]` is 1. -/
theorem light_south_with_east_inside :
    ∃ s : Sys, Reachable s ∧ run init lightMismatchSchedule = some s ∧
      s.g.light = Direction.south.code ∧ s.g.int_state.get .east = 1 :=
  ⟨_, ⟨lightMismatchSchedule, rfl⟩, rfl, rfl, rfl⟩

/-- C10, evaluated on `strandedSchedule`. At its end the only vehicle inside
is from the east and the only nonzero `line` counter is `line[east]`; when
that vehicle calls `intersection_after_exit(east)` all `int_state` counters
are zero, the selection branch is taken, and the light goes to `south` and the
broadcast to the condition variable of south, although `line[south]` is 0. -/
theorem light_handed_to_empty_line :
    ∃ s : Sys, run init strandedSchedule = some s ∧
      0 < s.inside.get .east ∧
      (∃ d : Direction, s.g.line.get d > 0) ∧
      (∀ d : Direction, (intersection_after_exit s.g .east .north).1.int_state.get d = 0) ∧
      (intersection_after_exit s.g .east .north).2 = some .south ∧
      (intersection_after_exit s.g .east .north).1.light = Direction.south.code ∧
      (intersection_after_exit s.g .east .north).1.line.get .south = 0 :=
  ⟨_, rfl, by decide, ⟨.east, by decide⟩, by intro d; cases d <;> rfl, rfl, rfl, rfl⟩

/-! ## What holds in every reachable state -/

theorem before_entry_enter_light (g : Globals) (origin : Direction) :
    (before_entry_enter g origin).light ≠ empty_state := by
  cases origin <;> simp only [before_entry_enter] <;> split_ifs with h <;>
    first
      | exact h
      | simp [Direction.code, empty_state]

theorem countInv_init : CountInv init := by
  refine ⟨⟨rfl, rfl, rfl, rfl⟩, fun _ => ⟨rfl, rfl, rfl, rfl⟩⟩

theorem countInv_enter (s : Sys) (origin : Direction) (w : Arr4 Nat) (h : CountInv s) :
    CountInv { s with
      g := before_entry_enter s.g origin
      woken := w
      inside := s.inside.set origin (s.inside.get origin + 1) } := by
  obtain ⟨⟨hn, he, hs, hw⟩, _⟩ := h
  refine ⟨?_, fun hl => absurd hl (before_entry_enter_light s.g origin)⟩
  cases origin <;> simp only [before_entry_enter] <;> split_ifs <;>
    simp [Arr4.set, Arr4.get, hn, he, hs, hw]

theorem countInv_step (s t : Sys) (e : Event) (h : CountInv s) (hst : step s e = some t) :
    CountInv t := by
  cases e with
  | arrive origin destination =>
    simp only [step] at hst
    cases hr : intersection_before_entry s.g origin destination with
    | waiting g cv =>
      rw [hr] at hst
      simp only [Option.some.injEq] at hst
      subst hst
      have hg : g.int_state = s.g.int_state ∧ g.light = s.g.light := by
        cases origin <;> simp only [intersection_before_entry] at hr <;>
          split_ifs at hr <;> cases hr <;> exact ⟨rfl, rfl⟩
      unfold CountInv at h ⊢
      simp only [hg.1, hg.2]
      exact h
    | returned g =>
      rw [hr] at hst
      simp only [Option.some.injEq] at hst
      subst hst
      have hg : g = before_entry_enter s.g origin := by
        cases origin <;> simp only [intersection_before_entry] at hr <;>
          split_ifs at hr <;> cases hr <;> rfl
      subst hg
      exact countInv_enter s origin s.woken h
  | resume origin =>
    simp only [step] at hst
    split_ifs at hst
    simp only [Option.some.injEq] at hst
    subst hst
    exact countInv_enter s origin _ h
  | leave origin destination =>
    simp only [step] at hst
    split_ifs at hst with hin
    obtain ⟨⟨hn, he, hs, hw⟩, hl⟩ := h
    have hint := after_exit_int_state s.g origin destination
    have hlight : (intersection_after_exit s.g origin destination).1.light = empty_state →
        ∀ d : Direction, (after_exit_decrement s.g origin).int_state.get d = 0 := by
      intro hle
      simp only [intersection_after_exit] at hle
      split_ifs at hle with h0 h1
      · intro d
        cases d <;> simp only [Arr4.get] <;> tauto
      · exfalso
        revert hle
        cases origin <;> simp only [after_exit_switch] <;> split_ifs <;>
          simp [Direction.code, empty_state]
      · exfalso
        have hle1 : s.g.light = empty_state := by
          rw [← hle]
          cases origin <;> simp [after_exit_decrement]
        obtain ⟨a, b, c, d⟩ := hl hle1
        cases origin <;> simp only [Arr4.get] at hin <;> omega
    have hcount : ∀ (b w : Arr4 Nat), CountInv
        { g := (intersection_after_exit s.g origin destination).1
          blocked := b
          woken := w
          inside := s.inside.set origin (s.inside.get origin - 1) } := by
      intro b w
      refine ⟨?_, ?_⟩
      · simp only [hint]
        cases origin <;> simp only [Arr4.get] at hin <;>
          simp only [after_exit_decrement, Arr4.set, Arr4.get, reduceCtorEq, if_true, if_false] <;>
          refine ⟨?_, ?_, ?_, ?_⟩ <;> omega
      · intro hle
        have hz := hlight hle
        simp only [hint]
        exact ⟨hz .north, hz .east, hz .south, hz .west⟩
    cases hr : intersection_after_exit s.g origin destination with
    | mk g b =>
      rw [hr] at hst hcount
      cases b with
      | none =>
        simp only [Option.some.injEq] at hst
        subst hst
        exact hcount s.blocked s.woken
      | some cv =>
        simp only [Option.some.injEq] at hst
        subst hst
        exact hcount _ _

theorem countInv_run (es : List Event) (s t : Sys) (h : CountInv s)
    (hrun : run s es = some t) : CountInv t := by
  induction es generalizing s with
  | nil =>
    simp only [run, Option.some.injEq] at hrun
    subst hrun
    exact h
  | cons e es ih =>
    simp only [run] at hrun
    cases hs : step s e with
    | none => simp [hs] at hrun
    | some s1 =>
      rw [hs] at hrun
      exact ih s1 (countInv_step s s1 e h hs) hrun

theorem lightValid_step (s t : Sys) (e : Event) (h : LightValid s.g)
    (hst : step s e = some t) : LightValid t.g := by
  have henter : ∀ o : Direction, LightValid (before_entry_enter s.g o) := by
    intro o
    cases o <;> simp only [before_entry_enter] <;> split_ifs <;>
      first
        | exact h
        | exact Or.inr ⟨.north, rfl⟩
        | exact Or.inr ⟨.east, rfl⟩
        | exact Or.inr ⟨.south, rfl⟩
        | exact Or.inr ⟨.west, rfl⟩
  cases e with
  | arrive origin destination =>
    simp only [step] at hst
    cases hr : intersection_before_entry s.g origin destination with
    | waiting g cv =>
      rw [hr] at hst
      simp only [Option.some.injEq] at hst
      subst hst
      cases origin <;> simp only [intersection_before_entry] at hr <;>
        split_ifs at hr <;> cases hr <;> exact h
    | returned g =>
      rw [hr] at hst
      simp only [Option.some.injEq] at hst
      subst hst
      cases origin <;> simp only [intersection_before_entry] at hr <;>
        split_ifs at hr <;> cases hr <;> exact henter _
  | resume origin =>
    simp only [step] at hst
    split_ifs at hst
    simp only [Option.some.injEq] at hst
    subst hst
    exact henter origin
  | leave origin destination =>
    simp only [step] at hst
    split_ifs at hst with hin
    have hv : LightValid (intersection_after_exit s.g origin destination).1 := by
      simp only [intersection_after_exit]
      split_ifs
      · exact Or.inl rfl
      · cases origin <;> simp only [after_exit_switch] <;> split_ifs <;>
          first
            | exact Or.inr ⟨.north, rfl⟩
            | exact Or.inr ⟨.east, rfl⟩
            | exact Or.inr ⟨.south, rfl⟩
            | exact Or.inr ⟨.west, rfl⟩
      · cases origin <;> exact h
    cases hr : intersection_after_exit s.g origin destination with
    | mk g b =>
      rw [hr] at hst hv
      cases b <;> simp only [Option.some.injEq] at hst <;> subst hst <;> exact hv

/-- In every reachable state the light holds `empty_state` or a direction. -/
theorem lightValid_reachable (s : Sys) (h : Reachable s) : LightValid s.g := by
  obtain ⟨es, hrun⟩ := h
  have gen : ∀ (es : List Event) (a : Sys), LightValid a.g → run a es = some s →
      LightValid s.g := by
    intro es
    induction es with
    | nil =>
      intro a ha hr
      simp only [run, Option.some.injEq] at hr
      subst hr
      exact ha
    | cons e es ih =>
      intro a ha hr
      simp only [run] at hr
      cases hs : step a e with
      | none => simp [hs] at hr
      | some a1 =>
        rw [hs] at hr
        exact ih a1 (lightValid_step a a1 e ha hs) hr
  exact gen es init (Or.inl rfl) hrun

/-- C4 as stated fails: after `handOffSchedule` the light is `east`, set by the
hand-off of the leaving north vehicle, while the woken east vehicle has not
resumed and all four `int_state` counters are zero. -/
theorem light_empty_iff_all_zero_fails :
    ¬ ∀ s : Sys, Reachable s →
      (s.g.light = empty_state ↔ ∀ d : Direction, s.g.int_state.get d = 0) := by
  intro h
  have hs := h _ ⟨handOffSchedule, rfl⟩
  have hl := hs.mpr (by intro d; cases d <;> rfl)
  revert hl
  decide

/-! ## The rotation -/

/-- C11, as the code has it. For every exiting origin and every state, the
`switch` of `intersection_after_exit` tests the first two directions of the
rotation table (North: South, East, West; South: East, West, North; West:
North, South, East; East: West, North, South) for `line > 0`, in that order,
and takes the third otherwise, setting the light to the direction taken; and
for no origin is that order the clockwise one. -/
theorem after_exit_switch_order (g : Globals) (origin : Direction) :
    (after_exit_switch g origin).2 =
      (((specCheckOrder origin).take 2).find? (fun d => decide (g.line.get d > 0))).getD
        ((specCheckOrder origin).getD 2 origin) ∧
    (after_exit_switch g origin).1 = { g with light := (after_exit_switch g origin).2.code } ∧
    specCheckOrder origin ≠ clockwiseCheckOrder origin := by
  refine ⟨?_, ?_, ?_⟩
  · cases origin
    all_goals
      simp only [after_exit_switch, specCheckOrder, List.take, List.find?, Arr4.get,
        List.getD_cons_succ, List.getD_cons_zero, gt_iff_lt]
      split_ifs with h1 h2
      · rw [decide_eq_true h1]
        rfl
      · rw [decide_eq_false h1, decide_eq_true h2]
        rfl
      · rw [decide_eq_false h1, decide_eq_false h2]
        rfl
  · cases origin <;> simp only [after_exit_switch] <;> split_ifs <;> rfl
  · cases origin <;> decide

/-- C11 as stated fails: when the last north vehicle leaves while east and
south both line up, the code hands the light to south, whereas the first
waiting direction in clockwise order from north is east. -/
theorem clockwise_order_fails :
    ¬ ∀ (g : Globals) (origin destination : Direction),
      (∀ d : Direction,
        (if d = origin then g.int_state.get d - 1 else g.int_state.get d) = 0) →
      (∃ d : Direction, d ≠ origin ∧ g.line.get d > 0) →
      (intersection_after_exit g origin destination).2 =
        (clockwiseCheckOrder origin).find? (fun d => decide (g.line.get d > 0)) := by
  intro h
  have h1 := h northEastSouthWaiting .north .south (by intro d; cases d <;> decide)
    ⟨.east, by decide, by decide⟩
  revert h1
  decide

theorem handOffReady_first (g : Globals) (origin destination : Direction)
    (h : HandOffReady g origin) :
    (intersection_after_exit g origin destination).2 =
      some ((specCheckOrder origin).headD origin) := by
  obtain ⟨hz, hl⟩ := h
  have n0 := hz .north
  have e0 := hz .east
  have s0 := hz .south
  have w0 := hz .west
  cases origin
  all_goals
    simp only [Arr4.get, reduceCtorEq, if_true, if_false] at n0 e0 s0 w0
    simp only [intersection_after_exit, after_exit_decrement, after_exit_switch, specCheckOrder,
      List.headD, Arr4.get, reduceCtorEq, if_true, if_false, gt_iff_lt]
    rw [if_pos ⟨by omega, by omega, by omega, by omega⟩]
  · have := hl .south (by decide)
    simp only [Arr4.get, gt_iff_lt] at this
    rw [if_neg (by omega), if_pos this]
  · have := hl .west (by decide)
    simp only [Arr4.get, gt_iff_lt] at this
    rw [if_neg (by omega), if_pos this]
  · have := hl .east (by decide)
    simp only [Arr4.get, gt_iff_lt] at this
    rw [if_neg (by omega), if_pos this]
  · have := hl .north (by decide)
    simp only [Arr4.get, gt_iff_lt] at this
    rw [if_neg (by omega), if_pos this]

/-- C12. Starvation bound: take three successive hand-offs, the first by the
last vehicle of `origin`, each next one by the last vehicle of the direction
chosen before, and at each of them let every direction other than the exiting
one have `line[d] > 0`. Then `intersection_after_exit` chooses a direction
each time, never the exiting one, the three directions chosen are all the
directions other than `origin`, and from north they are south, then east,
then west. -/
theorem handoff_reaches_all (origin destination : Direction) (g1 g2 g3 : Globals)
    (h1 : HandOffReady g1 origin)
    (h2 : ∀ c1 : Direction, (intersection_after_exit g1 origin destination).2 = some c1 →
      HandOffReady g2 c1)
    (h3 : ∀ c1 c2 : Direction, (intersection_after_exit g1 origin destination).2 = some c1 →
      (intersection_after_exit g2 c1 destination).2 = some c2 → HandOffReady g3 c2) :
    ∃ c1 c2 c3 : Direction,
      (intersection_after_exit g1 origin destination).2 = some c1 ∧
      (intersection_after_exit g2 c1 destination).2 = some c2 ∧
      (intersection_after_exit g3 c2 destination).2 = some c3 ∧
      c1 ≠ origin ∧ c2 ≠ c1 ∧ c3 ≠ c2 ∧
      (∀ d : Direction, d ≠ origin → d = c1 ∨ d = c2 ∨ d = c3) ∧
      (origin = .north → c1 = .south ∧ c2 = .east ∧ c3 = .west) := by
  have e1 := handOffReady_first g1 origin destination h1
  have r2 := h2 _ e1
  have e2 := handOffReady_first g2 _ destination r2
  have r3 := h3 _ _ e1 e2
  have e3 := handOffReady_first g3 _ destination r3
  refine ⟨_, _, _, e1, e2, e3, ?_⟩
  cases origin
  all_goals
    refine ⟨by decide, by decide, by decide, ?_, by decide⟩
    intro d hd
    cases d <;> first
      | exact absurd rfl hd
      | decide

/-- The instance of `handoff_reaches_all` that starts with the last north
vehicle, with all four directions lining up at each hand-off. -/
theorem handoff_reaches_all_witness :
    HandOffReady (lastOutAllWaiting .north) .north ∧
    ∃ c1 c2 c3 : Direction,
      (intersection_after_exit (lastOutAllWaiting .north) .north .east).2 = some c1 ∧
      (intersection_after_exit (lastOutAllWaiting .south) c1 .east).2 = some c2 ∧
      (intersection_after_exit (lastOutAllWaiting .east) c2 .east).2 = some c3 ∧
      c1 ≠ .north ∧ c2 ≠ c1 ∧ c3 ≠ c2 ∧
      (∀ d : Direction, d ≠ .north → d = c1 ∨ d = c2 ∨ d = c3) ∧
      (Direction.north = .north → c1 = .south ∧ c2 = .east ∧ c3 = .west) :=
  have ready : ∀ o : Direction, HandOffReady (lastOutAllWaiting o) o := by
    intro o
    constructor
    · intro d
      cases o <;> cases d <;> decide
    · intro d _
      cases o <;> cases d <;> decide
  ⟨ready .north,
    handoff_reaches_all .north .east (lastOutAllWaiting .north) (lastOutAllWaiting .south)
      (lastOutAllWaiting .east) (ready .north)
      (fun c1 hc => by
        have : c1 = .south := by
          cases c1 <;> first
            | rfl
            | exact absurd hc (by decide)
        rw [this]
        exact ready .south)
      (fun c1 c2 hc1 hc2 => by
        have e1 : c1 = .south := by
          cases c1 <;> first
            | rfl
            | exact absurd hc1 (by decide)
        subst e1
        have e2 : c2 = .east := by
          cases c2 <;> first
            | rfl
            | exact absurd hc2 (by decide)
        rw [e2]
        exact ready .east)⟩

/-! ## The batch scenario -/

theorem run_append (s : Sys) (a b : List Event) :
    run s (a ++ b) = (run s a).bind (fun t => run t b) := by
  induction a generalizing s with
  | nil => rfl
  | cons e es ih =>
    simp only [List.cons_append, run]
    cases step s e with
    | none => rfl
    | some s1 => exact ih s1

theorem batch_first_entry (d dst : Direction) :
    step init (.arrive d dst) = some (batchInside d 1) := by
  cases d <;> rfl

theorem batch_next_entry (d dst : Direction) (k : Nat) :
    step (batchInside d (k + 1)) (.arrive d dst) = some (batchInside d (k + 2)) := by
  cases d <;>
    simp [step, intersection_before_entry, before_entry_enter, batchInside, Arr4.set, Arr4.get,
      Direction.code, empty_state] <;> omega

theorem batch_entries (d dst : Direction) (j k : Nat) :
    run (batchInside d (j + 1)) (List.replicate k (.arrive d dst)) =
      some (batchInside d (j + 1 + k)) := by
  induction k generalizing j with
  | zero => rfl
  | succ k ih =>
    simp only [List.replicate_succ, run, batch_next_entry, Option.some_bind]
    rw [ih (j + 1)]
    congr 2
    omega

theorem batch_entries_init (d dst : Direction) (k : Nat) :
    run init (List.replicate (k + 1) (.arrive d dst)) = some (batchInside d (k + 1)) := by
  simp only [List.replicate_succ, run, batch_first_entry, Option.some_bind]
  rw [batch_entries d dst 0 k]
  congr 2
  omega

theorem batch_blocked_entry (d e dst : Direction) (k : Nat) (hde : d ≠ e) :
    step (batchInside d (k + 1)) (.arrive e dst) = some (batchWaiting d e (k + 1)) := by
  cases d <;> cases e <;> first
    | exact absurd rfl hde
    | simp [step, intersection_before_entry, batchInside, batchWaiting, Arr4.set, Arr4.get,
        Direction.code, empty_state]

theorem batch_early_exit (d e dst : Direction) (k : Nat) (hde : d ≠ e) :
    step (batchWaiting d e (k + 2)) (.leave d dst) = some (batchWaiting d e (k + 1)) := by
  have hk : ¬ ((k : Int) + 2 - 1 = 0) := by omega
  cases d <;> cases e <;> first
    | exact absurd rfl hde
    | (simp [step, intersection_after_exit, after_exit_decrement, batchWaiting, Arr4.set,
        Arr4.get, Direction.code, hk]
       omega)

theorem batch_last_exit (d e dst : Direction) (hde : d ≠ e) :
    step (batchWaiting d e 1) (.leave d dst) = some (batchHanded e) := by
  cases d <;> cases e <;> first
    | exact absurd rfl hde
    | rfl

theorem batch_early_exits (d e dst : Direction) (j k : Nat) (hde : d ≠ e) :
    run (batchWaiting d e (j + 1 + k)) (List.replicate k (.leave d dst)) =
      some (batchWaiting d e (j + 1)) := by
  induction k with
  | zero => rfl
  | succ k ih =>
    have hs : step (batchWaiting d e (j + 1 + (k + 1))) (.leave d dst) =
        some (batchWaiting d e (j + 1 + k)) := by
      have := batch_early_exit d e dst (j + k) hde
      rw [show j + 1 + (k + 1) = j + k + 2 by omega, show j + 1 + k = j + k + 1 by omega]
      exact this
    simp only [List.replicate_succ, run, hs, Option.some_bind]
    exact ih

/-- C13. Batch scenario, for distinct directions `d`, `e` and `n ≥ 1`,
from the initial idle state: each of `n` consecutive
`intersection_before_entry(d)` calls returns without waiting, and after `k`
of them `light == d` and `int_state[d] == k`; a following
`intersection_before_entry(e)` suspends with `line[e] == 1`; after each of
the first `n - 1` calls of `intersection_after_exit(d)` the light is still
`d`, nothing has been broadcast and the vehicle of `e` is still blocked; the
`n`-th sets `light == e` and broadcasts the condition variable of `e`, and
the woken vehicle then enters with `int_state[e] == 1` and
`int_state[d] == 0`. -/
theorem batch_scenario (d e dst : Direction) (n : Nat) (hde : d ≠ e) (hn : 1 ≤ n) :
    (∀ k : Nat, 1 ≤ k → k ≤ n →
      ∃ s : Sys, run init (List.replicate k (.arrive d dst)) = some s ∧
        s.g.light = d.code ∧ s.g.int_state.get d = k ∧ s.inside.get d = k ∧
        s.blocked = ⟨0, 0, 0, 0⟩) ∧
    ∃ s2 : Sys, run init (List.replicate n (.arrive d dst) ++ [.arrive e dst]) = some s2 ∧
      s2.g.line.get e = 1 ∧ s2.blocked.get e = 1 ∧ s2.inside.get e = 0 ∧
      (∀ k : Nat, k < n →
        ∃ s3 : Sys, run s2 (List.replicate k (.leave d dst)) = some s3 ∧
          s3.g.light = d.code ∧ s3.woken = ⟨0, 0, 0, 0⟩ ∧ s3.blocked.get e = 1) ∧
      ∃ s4 : Sys, run s2 (List.replicate n (.leave d dst)) = some s4 ∧
        s4.g.light = e.code ∧ s4.woken.get e = 1 ∧ s4.blocked.get e = 0 ∧
        ∃ s5 : Sys, step s4 (.resume e) = some s5 ∧
          s5.g.int_state.get e = 1 ∧ s5.g.int_state.get d = 0 ∧ s5.inside.get e = 1 := by
  obtain ⟨m, rfl⟩ : ∃ m, n = m + 1 := ⟨n - 1, by omega⟩
  refine ⟨?_, batchWaiting d e (m + 1), ?_, ?_, ?_, ?_, ?_, batchHanded e, ?_, ?_, ?_, ?_, ?_⟩
  · intro k hk1 _
    obtain ⟨j, rfl⟩ : ∃ j, k = j + 1 := ⟨k - 1, by omega⟩
    refine ⟨batchInside d (j + 1), batch_entries_init d dst j, ?_, ?_, ?_, ?_⟩
    · rfl
    · cases d <;> simp [batchInside, Arr4.set, Arr4.get]
    · cases d <;> simp [batchInside, Arr4.set, Arr4.get]
    · rfl
  · rw [run_append, batch_entries_init d dst m]
    simp only [Option.some_bind, run, batch_blocked_entry d e dst m hde]
  · cases e <;> rfl
  · cases e <;> rfl
  · cases d <;> cases e <;> first
      | exact absurd rfl hde
      | rfl
  · intro k hk
    refine ⟨batchWaiting d e (m - k + 1), ?_, rfl, rfl, ?_⟩
    · have := batch_early_exits d e dst (m - k) k hde
      rw [show m - k + 1 + k = m + 1 by omega] at this
      exact this
    · cases e <;> rfl
  · rw [List.replicate_succ', run_append]
    have := batch_early_exits d e dst 0 m hde
    rw [show 0 + 1 + m = m + 1 by omega] at this
    rw [this]
    simp only [Option.some_bind, run, batch_last_exit d e dst hde]
  · rfl
  · cases e <;> rfl
  · cases e <;> rfl
  · refine ⟨{ (batchHanded e) with
        g := before_entry_enter (batchHanded e).g e
        woken := (batchHanded e).woken.set e ((batchHanded e).woken.get e - 1)
        inside := (batchHanded e).inside.set e ((batchHanded e).inside.get e + 1) }, ?_, ?_, ?_, ?_⟩
    · cases e <;> rfl
    · cases e <;> rfl
    · cases d <;> cases e <;> first
        | exact absurd rfl hde
        | rfl
    · cases e <;> rfl

/-- The instance of `batch_scenario` of the specification: three vehicles
from the north, a fourth from the east. -/
theorem batch_scenario_witness :
    Direction.north ≠ Direction.east ∧ 1 ≤ 3 ∧
    ((∀ k : Nat, 1 ≤ k → k ≤ 3 →
      ∃ s : Sys, run init (List.replicate k (.arrive .north .south)) = some s ∧
        s.g.light = Direction.north.code ∧ s.g.int_state.get .north = k ∧
        s.inside.get .north = k ∧ s.blocked = ⟨0, 0, 0, 0⟩) ∧
    ∃ s2 : Sys,
      run init (List.replicate 3 (.arrive .north .south) ++ [.arrive .east .south]) = some s2 ∧
      s2.g.line.get .east = 1 ∧ s2.blocked.get .east = 1 ∧ s2.inside.get .east = 0 ∧
      (∀ k : Nat, k < 3 →
        ∃ s3 : Sys, run s2 (List.replicate k (.leave .north .south)) = some s3 ∧
          s3.g.light = Direction.north.code ∧ s3.woken = ⟨0, 0, 0, 0⟩ ∧
          s3.blocked.get .east = 1) ∧
      ∃ s4 : Sys, run s2 (List.replicate 3 (.leave .north .south)) = some s4 ∧
        s4.g.light = Direction.east.code ∧ s4.woken.get .east = 1 ∧ s4.blocked.get .east = 0 ∧
        ∃ s5 : Sys, step s4 (.resume .east) = some s5 ∧
          s5.g.int_state.get .east = 1 ∧ s5.g.int_state.get .north = 0 ∧
          s5.inside.get .east = 1) :=
  ⟨by decide, by decide, batch_scenario .north .east .south 3 (by decide) (by decide)⟩

/-! ## Counting entries and exits -/

theorem before_entry_waiting_eq (g g1 : Globals) (origin destination cv : Direction)
    (h : intersection_before_entry g origin destination = .waiting g1 cv) :
    cv = origin ∧ g1 = { g with line := g.line.set origin (g.line.get origin + 1) } := by
  cases origin <;> simp only [intersection_before_entry] at h <;>
    split_ifs at h <;> cases h <;> exact ⟨rfl, rfl⟩

theorem before_entry_returned_eq (g g1 : Globals) (origin destination : Direction)
    (h : intersection_before_entry g origin destination = .returned g1) :
    g1 = before_entry_enter g origin := by
  cases origin <;> simp only [intersection_before_entry] at h <;>
    split_ifs at h <;> cases h <;> rfl

theorem enter_int_state (g : Globals) (origin d : Direction) :
    (before_entry_enter g origin).int_state.get d =
      g.int_state.get d + (if origin = d then 1 else 0) := by
  cases origin <;> cases d <;>
    simp only [before_entry_enter, Arr4.get, reduceCtorEq, if_true, if_false] <;>
    split_ifs <;> simp

theorem enter_line (g : Globals) (origin d : Direction) :
    (before_entry_enter g origin).line.get d = (if origin = d then 0 else g.line.get d) := by
  cases origin <;> cases d <;>
    simp only [before_entry_enter, Arr4.get, reduceCtorEq, if_true, if_false] <;>
    split_ifs <;> simp

theorem decrement_int_state (g : Globals) (origin d : Direction) :
    (after_exit_decrement g origin).int_state.get d =
      g.int_state.get d - (if origin = d then 1 else 0) := by
  cases origin <;> cases d <;> simp [after_exit_decrement, Arr4.get]

theorem after_exit_line (g : Globals) (origin destination : Direction) :
    (intersection_after_exit g origin destination).1.line = g.line := by
  have hd : (after_exit_decrement g origin).line = g.line := by
    cases origin <;> simp [after_exit_decrement]
  simp only [intersection_after_exit]
  split_ifs
  · exact hd
  · rw [← hd]
    cases origin <;> simp only [after_exit_switch] <;> split_ifs <;> rfl
  · exact hd

theorem step_int_state (a b : Sys) (e : Event) (d : Direction) (h : step a e = some b) :
    b.g.int_state.get d + (if isExitOf d e then 1 else 0) =
      a.g.int_state.get d + (if completesEntry a d e then 1 else 0) := by
  cases e with
  | arrive origin destination =>
    simp only [step] at h
    cases hr : intersection_before_entry a.g origin destination with
    | waiting g cv =>
      rw [hr] at h
      simp only [Option.some.injEq] at h
      subst h
      obtain ⟨_, hg⟩ := before_entry_waiting_eq _ _ _ _ _ hr
      simp [isExitOf, completesEntry, hr, EntryResult.isWaiting, hg]
    | returned g =>
      rw [hr] at h
      simp only [Option.some.injEq] at h
      subst h
      have hg := before_entry_returned_eq _ _ _ _ hr
      simp [isExitOf, completesEntry, hr, EntryResult.isWaiting, hg, enter_int_state]
  | resume origin =>
    simp only [step] at h
    split_ifs at h
    simp only [Option.some.injEq] at h
    subst h
    simp [isExitOf, completesEntry, enter_int_state]
  | leave origin destination =>
    simp only [step] at h
    split_ifs at h
    have hi := after_exit_int_state a.g origin destination
    cases hr : intersection_after_exit a.g origin destination with
    | mk g bc =>
      rw [hr] at h hi
      simp only at hi
      cases bc <;> simp only [Option.some.injEq] at h <;> subst h <;>
        simp [isExitOf, completesEntry, hi, decrement_int_state]

theorem step_line_nonneg (a b : Sys) (e : Event) (h : step a e = some b)
    (hl : ∀ d : Direction, 0 ≤ a.g.line.get d) : ∀ d : Direction, 0 ≤ b.g.line.get d := by
  intro d
  have hd := hl d
  cases e with
  | arrive origin destination =>
    simp only [step] at h
    cases hr : intersection_before_entry a.g origin destination with
    | waiting g cv =>
      rw [hr] at h
      simp only [Option.some.injEq] at h
      subst h
      obtain ⟨_, hg⟩ := before_entry_waiting_eq _ _ _ _ _ hr
      have ho := hl origin
      subst hg
      cases origin <;> cases d <;> simp only [Arr4.get, Arr4.set] at ho hd ⊢ <;> omega
    | returned g =>
      rw [hr] at h
      simp only [Option.some.injEq] at h
      subst h
      rw [before_entry_returned_eq _ _ _ _ hr, enter_line]
      split_ifs
      · exact le_refl 0
      · exact hd
  | resume origin =>
    simp only [step] at h
    split_ifs at h
    simp only [Option.some.injEq] at h
    subst h
    simp only [enter_line]
    split_ifs
    · exact le_refl 0
    · exact hd
  | leave origin destination =>
    simp only [step] at h
    split_ifs at h
    have hi := after_exit_line a.g origin destination
    cases hr : intersection_after_exit a.g origin destination with
    | mk g bc =>
      rw [hr] at h hi
      simp only at hi
      cases bc <;> simp only [Option.some.injEq] at h <;> subst h <;> simp only [hi] <;> exact hd

theorem run_counts (d : Direction) (es : List Event) (a s : Sys) (h : run a es = some s)
    (hl : ∀ x : Direction, 0 ≤ a.g.line.get x) :
    s.g.int_state.get d + (exitsDone d a es : Int) =
      a.g.int_state.get d + (entriesDone d a es : Int) ∧
    ∀ x : Direction, 0 ≤ s.g.line.get x := by
  induction es generalizing a with
  | nil =>
    simp only [run, Option.some.injEq] at h
    subst h
    exact ⟨by simp [exitsDone, entriesDone], hl⟩
  | cons e es ih =>
    simp only [run] at h
    cases hs : step a e with
    | none => simp [hs] at h
    | some a1 =>
      rw [hs] at h
      obtain ⟨h1, h2⟩ := ih a1 h (step_line_nonneg a a1 e hs hl)
      refine ⟨?_, h2⟩
      have h3 := step_int_state a a1 e d hs
      simp only [exitsDone, entriesDone, hs]
      push_cast
      split_ifs at h3 ⊢ <;> omega

/-- C14. Round-trip counting: along every schedule of contract-respecting
vehicles from the initial state and for every direction `d`, `int_state[d]`
is the number of completed `intersection_before_entry(d)` calls minus the
number of completed `intersection_after_exit(d)` calls, the exits never
outnumber the entries, and neither `int_state[d]` nor `line[d]` is negative.
In every state whatever, a call that suspends leaves `int_state[d]` as it
is, the statements that complete an entry add exactly 1 to the counter of
their origin, and `intersection_after_exit` subtracts exactly 1 from the
counter of its origin on each of its branches. -/
theorem round_trip_counting (es : List Event) (s : Sys) (d : Direction)
    (h : run init es = some s) :
    s.g.int_state.get d = (entriesDone d init es : Int) - (exitsDone d init es : Int) ∧
    exitsDone d init es ≤ entriesDone d init es ∧
    0 ≤ s.g.int_state.get d ∧ 0 ≤ s.g.line.get d ∧
    (∀ (g : Globals) (origin destination : Direction),
      (intersection_before_entry g origin destination).isWaiting = true →
      ∃ g1 cv, intersection_before_entry g origin destination = .waiting g1 cv ∧
        g1.int_state.get d = g.int_state.get d) ∧
    (∀ (g : Globals) (origin : Direction),
      (before_entry_enter g origin).int_state.get d =
        g.int_state.get d + (if origin = d then 1 else 0)) ∧
    (∀ (g : Globals) (origin destination : Direction),
      (intersection_after_exit g origin destination).1.int_state.get d =
        g.int_state.get d - (if origin = d then 1 else 0)) := by
  obtain ⟨h1, h2⟩ := run_counts d es init s h (by intro x; cases x <;> decide)
  obtain ⟨⟨hn, he, hs, hw⟩, _⟩ := countInv_run es init s countInv_init h
  have h0 : init.g.int_state.get d = 0 := by cases d <;> rfl
  have hpos : 0 ≤ s.g.int_state.get d := by
    cases d <;> simp only [Arr4.get] <;> omega
  rw [h0] at h1
  refine ⟨by omega, by omega, hpos, h2 d, ?_, ?_, ?_⟩
  · intro g origin destination hw
    cases hr : intersection_before_entry g origin destination with
    | waiting g1 cv =>
      obtain ⟨_, hg⟩ := before_entry_waiting_eq _ _ _ _ _ hr
      exact ⟨g1, cv, rfl, by rw [hg]⟩
    | returned g1 =>
      rw [hr] at hw
      simp [EntryResult.isWaiting] at hw
  · intro g origin
    exact enter_int_state g origin d
  · intro g origin destination
    rw [after_exit_int_state, decrement_int_state]

/-- The instance of `round_trip_counting` on `lateResumeSchedule`, for
east: two entries, one exit. -/
theorem round_trip_counting_witness :
    ∃ s : Sys, run init lateResumeSchedule = some s ∧
      s.g.int_state.get .east =
        (entriesDone .east init lateResumeSchedule : Int) -
          (exitsDone .east init lateResumeSchedule : Int) ∧
      entriesDone .east init lateResumeSchedule = 2 ∧
      exitsDone .east init lateResumeSchedule = 1 ∧
      0 ≤ s.g.int_state.get .east ∧ 0 ≤ s.g.line.get .east :=
  ⟨_, rfl, (round_trip_counting lateResumeSchedule _ .east rfl).1, by decide, by decide,
    (round_trip_counting lateResumeSchedule _ .east rfl).2.2.1,
    (round_trip_counting lateResumeSchedule _ .east rfl).2.2.2.1⟩

/-! ## The empty light -/

theorem before_entry_waiting_cause (g g1 : Globals) (origin destination cv : Direction)
    (h : intersection_before_entry g origin destination = .waiting g1 cv) :
    g.light ≠ empty_state ∨
      ¬ (g.int_state.north = 0 ∧ g.int_state.east = 0 ∧
        g.int_state.south = 0 ∧ g.int_state.west = 0) := by
  cases origin <;> simp only [intersection_before_entry] at h <;>
    split_ifs at h with hc <;>
    rcases hc with hc | hc | hc | hc <;>
    first
      | exact Or.inl hc.2
      | exact Or.inr (fun hz => hc hz.1)
      | exact Or.inr (fun hz => hc hz.2.1)
      | exact Or.inr (fun hz => hc hz.2.2.1)
      | exact Or.inr (fun hz => hc hz.2.2.2)

theorem lightInv_enter (s : Sys) (origin : Direction) (w : Arr4 Nat) (hc : CountInv s) :
    LightInv { s with
      g := before_entry_enter s.g origin
      woken := w
      inside := s.inside.set origin (s.inside.get origin + 1) } := by
  obtain ⟨⟨hn, he, hs, hw⟩, _⟩ := hc
  refine ⟨fun hl => absurd hl (before_entry_enter_light s.g origin), ?_⟩
  rintro ⟨⟨z1, z2, z3, z4⟩, _⟩
  exfalso
  have zo : (before_entry_enter s.g origin).int_state.get origin = 0 := by
    cases origin
    exacts [z1, z2, z3, z4]
  rw [enter_int_state, if_pos rfl] at zo
  cases origin <;> simp only [Arr4.get] at zo <;> omega

theorem lightInv_step (a b : Sys) (e : Event) (hc : CountInv a)
    (hn : ∀ d : Direction, 0 ≤ a.g.line.get d) (h : step a e = some b) :
    LightInv b := by
  cases e with
  | arrive origin destination =>
    simp only [step] at h
    cases hr : intersection_before_entry a.g origin destination with
    | waiting g cv =>
      rw [hr] at h
      simp only [Option.some.injEq] at h
      subst h
      obtain ⟨_, hg⟩ := before_entry_waiting_eq _ _ _ _ _ hr
      have hcause := before_entry_waiting_cause _ _ _ _ _ hr
      have ho := hn origin
      subst hg
      refine ⟨?_, ?_⟩
      · intro hl
        exfalso
        have hl1 : a.g.light = empty_state := hl
        rcases hcause with h1 | h1
        · exact h1 hl1
        · obtain ⟨⟨c1, c2, c3, c4⟩, hz⟩ := hc
          exact h1 (hz hl1)
      · rintro ⟨_, l1, l2, l3, l4⟩
        exfalso
        cases origin <;> simp only [Arr4.get, Arr4.set] at ho l1 l2 l3 l4 <;> omega
    | returned g =>
      rw [hr] at h
      simp only [Option.some.injEq] at h
      subst h
      rw [before_entry_returned_eq _ _ _ _ hr]
      exact lightInv_enter a origin a.woken hc
  | resume origin =>
    simp only [step] at h
    split_ifs at h
    simp only [Option.some.injEq] at h
    subst h
    exact lightInv_enter a origin _ hc
  | leave origin destination =>
    simp only [step] at h
    split_ifs at h with hin
    have hline : (after_exit_decrement a.g origin).line = a.g.line := by
      cases origin <;> simp [after_exit_decrement]
    have hlight : (after_exit_decrement a.g origin).light = a.g.light := by
      cases origin <;> simp [after_exit_decrement]
    have hres : LightInv
        { g := (intersection_after_exit a.g origin destination).1
          blocked := a.blocked
          woken := a.woken
          inside := a.inside } := by
      simp only [intersection_after_exit]
      split_ifs with h0 h1
      · exact ⟨fun _ => ⟨h1.1, h1.2.1, h1.2.2.2, h1.2.2.1⟩, fun _ => rfl⟩
      · refine ⟨?_, ?_⟩
        · intro hl
          exfalso
          revert hl
          cases origin <;> simp only [after_exit_switch] <;> split_ifs <;>
            simp [Direction.code, empty_state]
        · rintro ⟨_, l1, l2, l3, l4⟩
          exfalso
          apply h1
          have hsl : (after_exit_switch (after_exit_decrement a.g origin) origin).1.line =
              (after_exit_decrement a.g origin).line := by
            cases origin <;> simp only [after_exit_switch] <;> split_ifs <;> rfl
          simp only [hsl] at l1 l2 l3 l4
          exact ⟨l1, l2, l4, l3⟩
      · refine ⟨?_, ?_⟩
        · intro hl
          exfalso
          have hl1 : a.g.light = empty_state := by
            rw [← hlight]
            exact hl
          obtain ⟨⟨c1, c2, c3, c4⟩, hz⟩ := hc
          obtain ⟨z1, z2, z3, z4⟩ := hz hl1
          cases origin <;> simp only [Arr4.get] at hin <;> omega
        · rintro ⟨⟨z1, z2, z3, z4⟩, _⟩
          exact absurd ⟨z1, z3, z4, z2⟩ h0
    cases hr : intersection_after_exit a.g origin destination with
    | mk g bc =>
      rw [hr] at h hres
      cases bc <;> simp only [Option.some.injEq] at h <;> subst h <;> exact hres

theorem lightInv_run (es : List Event) (a s : Sys) (hc : CountInv a)
    (hn : ∀ d : Direction, 0 ≤ a.g.line.get d) (hi : LightInv a)
    (h : run a es = some s) : LightInv s := by
  induction es generalizing a with
  | nil =>
    simp only [run, Option.some.injEq] at h
    subst h
    exact hi
  | cons e es ih =>
    simp only [run] at h
    cases hs : step a e with
    | none => simp [hs] at h
    | some a1 =>
      rw [hs] at h
      exact ih a1 (countInv_step a a1 e hc hs) (step_line_nonneg a a1 e hs hn)
        (lightInv_step a a1 e hc hn hs) h

/-- C4, as the code has it. In every reachable state (the lock is not held
between two steps), the light is `empty_state` if and only if all four
`int_state` counters and all four `line` counters are zero. In particular an
empty light comes with four zero `int_state` counters; the four `int_state`
counters alone being zero leaves the case of a hand-off, in which the light is
already set and some `line[d]` is positive. -/
theorem light_empty_all_zero (s : Sys) (h : Reachable s) :
    s.g.light = empty_state ↔
      (∀ d : Direction, s.g.int_state.get d = 0) ∧ ∀ d : Direction, s.g.line.get d = 0 := by
  obtain ⟨es, hrun⟩ := h
  obtain ⟨_, hz⟩ := countInv_run es init s countInv_init hrun
  have hinit : LightInv init :=
    ⟨fun _ => ⟨rfl, rfl, rfl, rfl⟩, fun _ => rfl⟩
  obtain ⟨hl, hconv⟩ := lightInv_run es init s countInv_init
    (by intro x; cases x <;> decide) hinit hrun
  constructor
  · intro he
    obtain ⟨a, b, c, e⟩ := hz he
    obtain ⟨a1, b1, c1, e1⟩ := hl he
    constructor <;> intro d <;> cases d <;> simp only [Arr4.get] <;> assumption
  · rintro ⟨hi, hln⟩
    exact hconv ⟨⟨hi .north, hi .east, hi .south, hi .west⟩,
      ⟨hln .north, hln .east, hln .south, hln .west⟩⟩

/-- Two instances of `light_empty_all_zero`. After a vehicle has entered the
idle intersection and left it again, the eight counters are zero and the
light is empty. After `handOffSchedule` the light is `east` and the four
`int_state` counters are zero, and `line[east]` is not. -/
theorem light_empty_all_zero_witness :
    (∃ s : Sys, run init idleAgainSchedule = some s ∧
      ((∀ d : Direction, s.g.int_state.get d = 0) ∧ ∀ d : Direction, s.g.line.get d = 0) ∧
      s.g.light = empty_state) ∧
    ∃ s : Sys, run init handOffSchedule = some s ∧
      s.g.light = Direction.east.code ∧ (∀ d : Direction, s.g.int_state.get d = 0) ∧
      ¬ ((∀ d : Direction, s.g.int_state.get d = 0) ∧ ∀ d : Direction, s.g.line.get d = 0) :=
  ⟨⟨_, rfl, ⟨by intro d; cases d <;> rfl, by intro d; cases d <;> rfl⟩,
      (light_empty_all_zero _ ⟨idleAgainSchedule, rfl⟩).mpr
        ⟨by intro d; cases d <;> rfl, by intro d; cases d <;> rfl⟩⟩,
    ⟨_, rfl, rfl, by intro d; cases d <;> rfl,
      fun hz => absurd ((light_empty_all_zero _ ⟨handOffSchedule, rfl⟩).mpr hz) (by decide)⟩⟩

/-! ## Assertions and initialisation -/

/-- C15, as the code has it. With the lock and the four condition variables
in place, `intersection_after_exit(origin)` called with
`int_state[origin] == 0` fails no assertion: it returns, with
`int_state[origin] == -1`, everything else as before and no broadcast. -/
theorem after_exit_without_entry (g : Globals) (origin destination : Direction)
    (h : g.int_state.get origin = 0) :
    after_exit_asserted allCreated g origin destination =
      some ({ g with int_state := g.int_state.set origin (-1) }, none) := by
  have hnot : ¬ ((after_exit_decrement g origin).int_state.north = 0 ∧
      (after_exit_decrement g origin).int_state.south = 0 ∧
      (after_exit_decrement g origin).int_state.west = 0 ∧
      (after_exit_decrement g origin).int_state.east = 0) := by
    rintro ⟨h1, h2, h3, h4⟩
    cases origin <;> simp_all [after_exit_decrement, Arr4.get]
  have hr : intersection_after_exit g origin destination =
      (after_exit_decrement g origin, none) := by
    simp only [intersection_after_exit]
    rw [if_neg hnot]
  simp only [after_exit_asserted, allCreated, and_self, if_true, hr]
  cases origin <;> simp_all [after_exit_decrement, Arr4.get, Arr4.set]

/-- The instance of `after_exit_without_entry` at the initial state. -/
theorem after_exit_without_entry_witness :
    init.g.int_state.get .north = 0 ∧
    after_exit_asserted allCreated init.g .north .south =
      some ({ init.g with int_state := init.g.int_state.set .north (-1) }, none) :=
  ⟨rfl, after_exit_without_entry init.g .north .south rfl⟩

/-- C15 as stated fails: called in the initial state, where
`int_state[north] == 0`, `intersection_after_exit(north)` does not abort. -/
theorem after_exit_abort_fails :
    ¬ ∀ (g : Globals) (origin destination : Direction), g.int_state.get origin = 0 →
      after_exit_asserted allCreated g origin destination = none := by
  intro h
  have h1 := h init.g .north .south rfl
  revert h1
  decide

/-- C16, as the code has it. When the five creations succeed,
`intersection_sync_init` sets `light` to `empty_state` and leaves `int_state`
and `line` as they were, so that it yields the idle state from every prior
light when the counters were zero; when some creation returns `NULL` it
panics. -/
theorem sync_init_result (g : Globals) (c : SyncObjs) (l : Int) :
    (intersection_sync_init g c).toOption =
      (if c = allCreated then some { g with light := empty_state } else none) ∧
    intersection_sync_init { int_state := ⟨0, 0, 0, 0⟩, line := ⟨0, 0, 0, 0⟩, light := l }
      allCreated = .ok init.g := by
  refine ⟨?_, rfl⟩
  obtain ⟨a, b, c, d, e⟩ := c
  cases a <;> cases b <;> cases c <;> cases d <;> cases e <;> rfl

/-- C16 as stated fails: with two north vehicles counted in `int_state` and an
east vehicle in `line`, a successful `intersection_sync_init` does not yield
the state with all counters zero. -/
theorem sync_init_zeroes_fails :
    ¬ ∀ g : Globals, intersection_sync_init g allCreated = .ok init.g := by
  intro h
  have h1 := congrArg Except.toOption (h twoNorthInside)
  revert h1
  decide

/-! ## Blocked vehicles that nobody wakes -/

/-- C17, evaluated on `stuckSchedule`. At its end all four `int_state`
counters are zero, no vehicle is inside, no woken vehicle is pending, and a
vehicle of the east is still suspended in `cv_wait`, never broadcast. -/
theorem stuck_waiter :
    ∃ s : Sys, run init stuckSchedule = some s ∧
      (∀ d : Direction, s.g.int_state.get d = 0) ∧
      s.inside = ⟨0, 0, 0, 0⟩ ∧ s.woken = ⟨0, 0, 0, 0⟩ ∧ s.blocked.get .east = 1 :=
  ⟨_, rfl, by intro d; cases d <;> rfl, rfl, rfl, rfl⟩

/-- C18, evaluated on `hiddenWaiterSchedule`. At its end a vehicle of the
east is suspended in `cv_wait`, never broadcast, while `line[east]` is 0; and
when the two vehicles inside then leave, the call that drains the
intersection finds all `line` counters zero, empties the light and broadcasts
nothing, the east vehicle still blocked. -/
theorem hidden_waiter :
    ∃ s t : Sys, run init hiddenWaiterSchedule = some s ∧
      s.blocked.get .east = 1 ∧ s.g.line.get .east = 0 ∧
      run s [.leave .south .west, .leave .east .west] = some t ∧
      t.g.light = empty_state ∧ t.woken = ⟨0, 0, 0, 0⟩ ∧ t.blocked.get .east = 1 :=
  ⟨_, _, rfl, rfl, rfl, rfl, rfl, rfl, rfl⟩

end TrafficSynch
namespace ProcSyscalls

/-! ## The stack of a new program -/

/-- C19, evaluated at the stack top `0x80000000` for a program started with
the one argument `ls` (`strlen` 2) and for one started without arguments.
With `ls` the string takes `ROUNDUP(3, 4) = 4` bytes and the argv array 8,
so the array is copied out to `0x7FFFFFF4`, and the stack pointer passed to
`enter_new_process` is `ROUNDUP(0x7FFFFFF4, 8) = 0x7FFFFFF8`: 8-byte aligned,
but four bytes above the base of the argv array, whose first entry lies in
the stack that grows down from it. Without arguments the array is at
`0x7FFFFFFC` and the stack pointer is `0x80000000`. -/
theorem execv_stack_above_argv :
    userStackTop % 8 = 0 ∧
    sys_execv_stack [2] userStackTop = (0x7FFFFFF4, 0x7FFFFFF8) ∧
    (sys_execv_stack [2] userStackTop).2 % 8 = 0 ∧
    (sys_execv_stack [2] userStackTop).1 < (sys_execv_stack [2] userStackTop).2 ∧
    sys_execv_stack [] userStackTop = (0x7FFFFFFC, 0x80000000) ∧
    (sys_execv_stack [] userStackTop).1 < (sys_execv_stack [] userStackTop).2 := by
  decide

/-! ## Exit and wait -/

theorem waitpid_reports_exit (mkwait : Int → Int) (pid c : Int) (hc : c ≠ -1) :
    sys_waitpid_loop mkwait pid none (sys__exit_record pid c [sys_fork_child pid]) =
      .exited (mkwait c) := by
  simp [sys__exit_record, sys_fork_child, sys_waitpid_loop, hc]

/-- C20, evaluated for the exit code -1. After `sys__exit(-1)` has stored the
exit code in the entry that `sys_fork` made for the child, the entry is as
`sys_fork` left it and `sys_waitpid` for that child still waits. -/
theorem waitpid_waits_after_exit_minus_one (mkwait : Int → Int) (pid : Int) :
    sys__exit_record pid (-1) [sys_fork_child pid] = [sys_fork_child pid] ∧
    sys_waitpid_loop mkwait pid none (sys__exit_record pid (-1) [sys_fork_child pid]) =
      .waiting := by
  simp [sys__exit_record, sys_fork_child, sys_waitpid_loop]

end ProcSyscalls
